import Mathlib

/-! Transaction bridge of `aedatastore` (timakin/datastore).

A shallow embedding of `aedatastore/transaction.go`.

* Go `error` values are `Option GoError` (`none` is `nil`).  A value made by
  `errors.New` carries the address of its allocation, so that `==` on two such
  values is pointer identity.
* A Go panic is the `crash` constructor of `Outcome`.
* The goroutine started by `newTxExtractor` and the caller of the Facade are the
  two components of `State`; the unbuffered channels `ctxC`, `finishC` and
  `resultC` are rendezvous steps of `step` (a send and its receive happen in one
  step, and a party blocked on a channel has no step of its own).
-/

namespace AEDatastore

/-! ## Values -/

/-- A value made by `errors.New`: the address of the allocated `*errorString`
and its text. -/
structure PlainError where
  addr : Nat
  msg : String
  deriving DecidableEq, Repr

/-- Modelled from the spec: the wrapper package's error values (its type
declarations are not in `src/`); either a plain error or the multi-error
structure that aggregates per-key results (`w.MultiError`). -/
inductive GoError where
  | plain (e : PlainError)
  | multi (errs : List (Option PlainError))
  deriving DecidableEq, Repr

/-- A Go `error` interface value; `none` is `nil`. -/
abbrev Error := Option GoError

/-- The result of running Go code that may panic. -/
inductive Outcome (α : Type) where
  | ret (a : α)
  | crash (msg : String)
  deriving DecidableEq, Repr

/-- Sequencing of code that may panic. -/
def Outcome.andThen {α β : Type} (o : Outcome α) (f : α → Outcome β) : Outcome β :=
  match o with
  | .ret a => f a
  | .crash m => .crash m

/-- The runtime panic raised by a field access through a nil pointer. -/
def nilDeref : String := "invalid memory address or nil pointer dereference"

/-- The runtime panic raised by indexing past the end of a slice. -/
def indexOutOfRange : String := "index out of range"

/-- The runtime panic raised by a failed single-value type assertion. -/
def badTypeAssertion : String := "interface conversion"

/-- The call `errors.New(msg)` when the next free address is `heap`. -/
def errorsNew (heap : Nat) (msg : String) : GoError :=
  .plain ⟨heap, msg⟩

/-- A transaction-scoped `context.Context` handed out by the underlying primitive. -/
abbrev Context := Nat

/-- A datastore key (its encoding is outside the bridge). -/
abbrev Key := Nat

/-- A pending key of the wrapper package. -/
abbrev PendingKey := Nat

/-- The struct `txResult`. -/
structure txResult where
  commit : Bool
  rollback : Bool
  deriving DecidableEq, Repr

/-- The struct `datastore.TransactionOptions` as far as the bridge sets it. -/
structure TransactionOptions where
  XG : Bool
  Attempts : Nat
  deriving DecidableEq, Repr

/-- The struct `txExtractor`.  Its channels `finishC` and `resultC` are the
rendezvous steps of `step`; `txCtx` is `nil` until the select in
`newTxExtractor` stores the handle. -/
structure txExtractor where
  txCtx : Option Context
  deriving DecidableEq, Repr

/-- What `ctx.Value(contextTransaction{})` holds. -/
inductive CtxValue where
  | absent
  | extractor (p : Option txExtractor)
  | other
  deriving DecidableEq, Repr

/-- The client context, as far as the bridge reads it. -/
structure ClientContext where
  value : CtxValue
  deriving DecidableEq, Repr

/-- Modelled from the spec: the struct `datastoreImpl` (declared outside `src/`),
of which the bridge reads the field `ctx` only. -/
structure datastoreImpl where
  ctx : ClientContext
  deriving DecidableEq, Repr

/-- The struct `transactionImpl`; `client` is a pointer. -/
structure transactionImpl where
  client : Option datastoreImpl
  deriving DecidableEq, Repr

/-- The struct `commitImpl`. -/
structure commitImpl where
  deriving DecidableEq, Repr

/-- The collaborators of the bridge that live outside `src/`, taken as
parameters: the error translation, the three `...MultiOps` helpers (each is
given the closure the Facade builds), the underlying datastore calls and the
pending-key conversion. -/
structure Env where
  toWrapperError : Error → Error
  getMultiOps : List Key → (List Key → Outcome Error) → Outcome Error
  putMultiOps : List Key →
    (List Key → Outcome (Option (List Key) × Option (List PendingKey) × Error)) →
    Outcome (Option (List Key) × Option (List PendingKey) × Error)
  deleteMultiOps : List Key → (List Key → Outcome Error) → Outcome Error
  dsGetMulti : Option Context → List Key → Error
  dsPutMulti : Option Context → List Key → List Key × Error
  dsDeleteMulti : Option Context → List Key → Error
  toWrapperPendingKeys : List Key → List PendingKey

/-! ## Sequential code of `newTxExtractor` -/

/-- The text of the rollback sentinel. -/
def rollbackMsg : String := "rollback requested"

/-- The options `newTxExtractor` passes to `datastore.RunInTransaction`. -/
def bridgeOptions : TransactionOptions :=
  { XG := true, Attempts := 1 }

/-- The callback of `newTxExtractor` from the receive on `finishC` on: `recv` is
`none` when the channel is closed (`ok` false), `heap` is the next free address. -/
def callbackAfterRecv (rollbackErr : GoError) (heap : Nat) (recv : Option txResult) :
    Outcome Error :=
  match recv with
  | none => .ret (some (errorsNew heap "channel closed"))
  | some result =>
    if result.commit then .ret none
    else if result.rollback then .ret (some rollbackErr)
    else .crash "unexpected tx state"

/-- The goroutine of `newTxExtractor` after `RunInTransaction` returned `err`:
the value it sends on `resultC`. -/
def bgOutcome (toWrapperError : Error → Error) (rollbackErr : GoError) (err : Error) : Error :=
  toWrapperError (if err = some rollbackErr then none else err)

/-- The `resultC` case of the select in `newTxExtractor`: the returned error,
or the panic on a nil outcome. -/
def selectResultCase (toWrapperError : Error → Error) (err : Error) : Outcome Error :=
  if err = none then .crash "unexpected state" else .ret (toWrapperError err)

/-! ## The Facade -/

/-- The function `getTxExtractor`. -/
def getTxExtractor (ctx : ClientContext) : Outcome (Option txExtractor) :=
  match ctx.value with
  | .absent => .ret none
  | .extractor p => .ret p
  | .other => .crash badTypeAssertion

/-- The expression `tx.client.ctx` for a pointer `tx`. -/
def clientCtx (tx : Option transactionImpl) : Outcome ClientContext :=
  match tx with
  | none => .crash nilDeref
  | some t =>
    match t.client with
    | none => .crash nilDeref
    | some c => .ret c.ctx

/-- The expression `ext.txCtx` for a pointer `ext`. -/
def extTxCtx (ext : Option txExtractor) : Outcome (Option Context) :=
  match ext with
  | none => .crash nilDeref
  | some x => .ret x.txCtx

/-- The error of the guard in every Facade method. -/
def unexpectedContext (heap : Nat) : GoError :=
  errorsNew heap "unexpected context"

/-- The method `transactionImpl.GetMulti`. -/
def transactionImpl.GetMulti (env : Env) (heap : Nat) (tx : Option transactionImpl)
    (keys : List Key) : Outcome Error :=
  (clientCtx tx).andThen fun ctx =>
  (getTxExtractor ctx).andThen fun ext =>
  if tx = none then .ret (some (unexpectedContext heap))
  else env.getMultiOps keys fun ks =>
    (extTxCtx ext).andThen fun c => .ret (env.dsGetMulti c ks)

/-- The method `transactionImpl.Get`. -/
def transactionImpl.Get (env : Env) (heap : Nat) (tx : Option transactionImpl)
    (key : Key) : Outcome Error :=
  (transactionImpl.GetMulti env heap tx [key]).andThen fun err =>
  match err with
  | some (.multi merr) =>
    match merr with
    | [] => .crash indexOutOfRange
    | e :: _ => .ret (e.map GoError.plain)
  | some e => .ret (some e)
  | none => .ret none

/-- The method `transactionImpl.PutMulti`. -/
def transactionImpl.PutMulti (env : Env) (heap : Nat) (tx : Option transactionImpl)
    (keys : List Key) : Outcome (Option (List PendingKey) × Error) :=
  (clientCtx tx).andThen fun ctx =>
  (getTxExtractor ctx).andThen fun ext =>
  if tx = none then .ret (none, some (unexpectedContext heap))
  else
    (env.putMultiOps keys fun ks =>
      (extTxCtx ext).andThen fun c =>
      match env.dsPutMulti c ks with
      | (_, some err) => .ret (none, none, some err)
      | (newKeys, none) => .ret (none, some (env.toWrapperPendingKeys newKeys), none)).andThen
    fun r =>
    match r with
    | (_, _, some err) => .ret (none, some err)
    | (_, pKeys, none) => .ret (pKeys, none)

/-- The method `transactionImpl.Put`. -/
def transactionImpl.Put (env : Env) (heap : Nat) (tx : Option transactionImpl)
    (key : Key) : Outcome (Option PendingKey × Error) :=
  (transactionImpl.PutMulti env heap tx [key]).andThen fun r =>
  match r with
  | (_, some (.multi merr)) =>
    match merr with
    | [] => .crash indexOutOfRange
    | e :: _ => .ret (none, e.map GoError.plain)
  | (_, some e) => .ret (none, some e)
  | (pKeys, none) =>
    match pKeys with
    | some (p :: _) => .ret (some p, none)
    | _ => .crash indexOutOfRange

/-- The method `transactionImpl.DeleteMulti`. -/
def transactionImpl.DeleteMulti (env : Env) (heap : Nat) (tx : Option transactionImpl)
    (keys : List Key) : Outcome Error :=
  (clientCtx tx).andThen fun ctx =>
  (getTxExtractor ctx).andThen fun ext =>
  if tx = none then .ret (some (unexpectedContext heap))
  else env.deleteMultiOps keys fun ks =>
    (extTxCtx ext).andThen fun c => .ret (env.dsDeleteMulti c ks)

/-- The method `transactionImpl.Delete`. -/
def transactionImpl.Delete (env : Env) (heap : Nat) (tx : Option transactionImpl)
    (key : Key) : Outcome Error :=
  (transactionImpl.DeleteMulti env heap tx [key]).andThen fun err =>
  match err with
  | some (.multi merr) =>
    match merr with
    | [] => .crash indexOutOfRange
    | e :: _ => .ret (e.map GoError.plain)
  | some e => .ret (some e)
  | none => .ret none

/-- The decision `txExtractor.commit` sends. -/
def commitDecision : txResult :=
  { commit := true, rollback := false }

/-- The decision `txExtractor.rollback` sends. -/
def rollbackDecision : txResult :=
  { commit := false, rollback := true }

/-- The method `txExtractor.commit` up to its send on `finishC`: the value it
is about to send, or the panic of reading `ext.finishC` through a nil `ext`. -/
def txExtractor.commit (ext : Option txExtractor) : Outcome txResult :=
  match ext with
  | none => .crash nilDeref
  | some _ => .ret commitDecision

/-- The method `txExtractor.rollback` up to its send on `finishC`. -/
def txExtractor.rollback (ext : Option txExtractor) : Outcome txResult :=
  match ext with
  | none => .crash nilDeref
  | some _ => .ret rollbackDecision

/-- How a call of `Commit` or `Rollback` goes on after its guard: it returns
the guard's error at once, or it blocks in the send of a decision. -/
inductive Entry where
  | reject (err : GoError)
  | send (d : txResult)
  deriving DecidableEq, Repr

/-- The method `transactionImpl.Commit` up to the send inside `ext.commit()`. -/
def transactionImpl.CommitEnter (heap : Nat) (tx : Option transactionImpl) : Outcome Entry :=
  (clientCtx tx).andThen fun ctx =>
  (getTxExtractor ctx).andThen fun ext =>
  if tx = none then .ret (.reject (unexpectedContext heap))
  else (txExtractor.commit ext).andThen fun d => .ret (.send d)

/-- The method `transactionImpl.Commit` from the value `err` that `ext.commit()`
received on `resultC`: the commit token and the error. -/
def transactionImpl.CommitFinish (err : Error) : Option commitImpl × Error :=
  if err ≠ none then (none, err) else (some {}, none)

/-- The method `transactionImpl.Rollback` up to the send inside `ext.rollback()`. -/
def transactionImpl.RollbackEnter (heap : Nat) (tx : Option transactionImpl) : Outcome Entry :=
  (clientCtx tx).andThen fun ctx =>
  (getTxExtractor ctx).andThen fun ext =>
  if tx = none then .ret (.reject (unexpectedContext heap))
  else (txExtractor.rollback ext).andThen fun d => .ret (.send d)

/-- The method `transactionImpl.Rollback` from the value received on `resultC`. -/
def transactionImpl.RollbackFinish (err : Error) : Error :=
  err

/-! ## The two parties and their steps -/

/-- Where the goroutine started by `newTxExtractor` stands. -/
inductive BgLoc where
  /-- spawned, `RunInTransaction` not called yet -/
  | start
  /-- inside `RunInTransaction`, the callback not running -/
  | inPrimitive
  /-- the callback blocked in `ctxC <- ctx` -/
  | cbSendCtx (c : Context)
  /-- the callback blocked in `<-ext.finishC` -/
  | cbRecvFinish
  /-- the callback returned `r`, the primitive finalising -/
  | cbReturned (r : Error)
  /-- `RunInTransaction` returned, blocked in `ext.resultC <- v` -/
  | sendResult (v : Error)
  /-- the goroutine ended -/
  | done
  /-- the callback panicked -/
  | crashed (msg : String)
  deriving DecidableEq, Repr

/-- Where the caller of the bridge stands. -/
inductive FgLoc where
  /-- in the select of `newTxExtractor` -/
  | selecting
  /-- `newTxExtractor` returned `(nil, err)` -/
  | startFailed (err : Error)
  /-- `newTxExtractor` panicked -/
  | startPanicked (msg : String)
  /-- holding the Facade, between two calls -/
  | ready
  /-- inside `ext.commit()` (`isCommit`) or `ext.rollback()`, blocked in `ext.finishC <- d` -/
  | sendFinish (isCommit : Bool) (d : txResult)
  /-- inside `ext.commit()` or `ext.rollback()`, blocked in `<-ext.resultC` -/
  | recvResult (isCommit : Bool)
  /-- a Facade call panicked -/
  | crashed (msg : String)
  deriving DecidableEq, Repr

/-- What a finished call of `Commit` or `Rollback` returned. -/
inductive FacadeReturn where
  | commit (token : Option commitImpl) (err : Error)
  | rollback (err : Error)
  deriving DecidableEq, Repr

/-- A call of one of the six operation methods of the Facade. -/
inductive Op where
  | get (key : Key)
  | getMulti (keys : List Key)
  | put (key : Key)
  | putMulti (keys : List Key)
  | delete (key : Key)
  | deleteMulti (keys : List Key)
  deriving DecidableEq, Repr

/-- What a call of an operation method did. -/
inductive OpResult where
  | error (o : Outcome Error)
  | pendingKeys (o : Outcome (Option (List PendingKey) × Error))
  | pendingKey (o : Outcome (Option PendingKey × Error))
  deriving DecidableEq, Repr

/-- The panic message of an operation call, if it panicked. -/
def OpResult.crashMsg : OpResult → Option String
  | .error (.crash m) => some m
  | .pendingKeys (.crash m) => some m
  | .pendingKey (.crash m) => some m
  | _ => none

/-- The state of one session. -/
structure State where
  bg : BgLoc
  fg : FgLoc
  /-- the variable `rollbackErr` of `newTxExtractor` -/
  rollbackErr : GoError
  /-- the next free address -/
  heap : Nat
  /-- the field `ext.txCtx` -/
  txCtx : Option Context
  /-- how many more times the primitive may invoke the callback -/
  attemptsLeft : Nat
  /-- the options of every call of `datastore.RunInTransaction`, oldest first -/
  primCalls : List TransactionOptions
  /-- the number of values sent on `resultC` -/
  resultSent : Nat
  /-- what the finished calls of `Commit` and `Rollback` returned, oldest first -/
  returns : List FacadeReturn
  /-- what the calls of the operation methods did, oldest first -/
  ops : List OpResult
  /-- the number of calls of `toWrapperError` made by the bridge -/
  translations : Nat
  deriving DecidableEq, Repr

/-- The function `newTxExtractor` up to its select: the channels are made, the
sentinel is allocated at the free address `heap` and the goroutine is started. -/
def newTxExtractorInit (heap : Nat) : State :=
  { bg := .start
    fg := .selecting
    rollbackErr := errorsNew heap rollbackMsg
    heap := heap + 1
    txCtx := none
    attemptsLeft := 0
    primCalls := []
    resultSent := 0
    returns := []
    ops := []
    translations := 0 }

/-- Modelled from the spec: the Facade of a session (its constructor
`NewTransaction` is outside `src/`): a `transactionImpl` whose client context
carries the session's extractor. -/
def sessionTx (s : State) : Option transactionImpl :=
  some { client := some { ctx := { value := .extractor (some { txCtx := s.txCtx }) } } }

/-- A call of an operation method on a Facade. -/
def runOp (env : Env) (heap : Nat) (tx : Option transactionImpl) : Op → OpResult
  | .get k => .error (transactionImpl.Get env heap tx k)
  | .getMulti ks => .error (transactionImpl.GetMulti env heap tx ks)
  | .put k => .pendingKey (transactionImpl.Put env heap tx k)
  | .putMulti ks => .pendingKeys (transactionImpl.PutMulti env heap tx ks)
  | .delete k => .error (transactionImpl.Delete env heap tx k)
  | .deleteMulti ks => .error (transactionImpl.DeleteMulti env heap tx ks)

/-- The steps of a session.  The choices of the environment are carried by the
step: the handle the primitive passes to the callback, the error the primitive
returns, and which method the consumer calls. -/
inductive Event where
  /-- the goroutine calls `datastore.RunInTransaction` -/
  | bgCallPrim
  /-- the primitive invokes the callback with the handle `c` -/
  | primInvoke (c : Context)
  /-- the primitive returns `e` -/
  | primReturn (e : Error)
  /-- the rendezvous on `ctxC` -/
  | handoffCtx
  /-- the rendezvous on `finishC` -/
  | handoffFinish
  /-- the rendezvous on `resultC` -/
  | handoffResult
  /-- the consumer calls `Commit` -/
  | callCommit
  /-- the consumer calls `Rollback` -/
  | callRollback
  /-- the consumer calls an operation method -/
  | callOp (op : Op)
  deriving DecidableEq, Repr

/-- The caller after the guard of `Commit` or `Rollback`. -/
def enterFinish (s : State) (isCommit : Bool) (o : Outcome Entry) : State :=
  match o with
  | .ret (.send d) => { s with fg := .sendFinish isCommit d }
  | .ret (.reject err) =>
    { s with returns := s.returns ++
        [if isCommit then FacadeReturn.commit none (some err) else FacadeReturn.rollback (some err)] }
  | .crash m => { s with fg := .crashed m }

/-- What `Commit` (`isCommit`) or `Rollback` returns once `ext.commit()` or
`ext.rollback()` has received `v` on `resultC`. -/
def finishReturn (isCommit : Bool) (v : Error) : FacadeReturn :=
  if isCommit then
    FacadeReturn.commit (transactionImpl.CommitFinish v).1 (transactionImpl.CommitFinish v).2
  else FacadeReturn.rollback (transactionImpl.RollbackFinish v)

/-- The decision a call of `Commit` (`isCommit`) or `Rollback` sends. -/
def decisionOf (isCommit : Bool) : txResult :=
  if isCommit then commitDecision else rollbackDecision

/-- The caller after a call of an operation method that did `r`. -/
def afterOp (s : State) (r : OpResult) : State :=
  match r.crashMsg with
  | some m => { s with fg := .crashed m, ops := s.ops ++ [r] }
  | none => { s with ops := s.ops ++ [r] }

/-- One step of a session; `none` when the step is not enabled.
Modelled from the spec: the part of the underlying primitive (it is outside
`src/`): it invokes the callback at most `Attempts` times, and it may return
any error, before or after the callback ran. -/
def step (env : Env) (s : State) : Event → Option State
  | .bgCallPrim =>
    match s.bg with
    | .start =>
      some { s with bg := .inPrimitive
                    primCalls := s.primCalls ++ [bridgeOptions]
                    attemptsLeft := bridgeOptions.Attempts }
    | _ => none
  | .primInvoke c =>
    if s.attemptsLeft = 0 then none
    else
      match s.bg with
      | .inPrimitive => some { s with bg := .cbSendCtx c, attemptsLeft := s.attemptsLeft - 1 }
      | .cbReturned _ => some { s with bg := .cbSendCtx c, attemptsLeft := s.attemptsLeft - 1 }
      | _ => none
  | .primReturn e =>
    match s.bg with
    | .inPrimitive =>
      some { s with bg := .sendResult (bgOutcome env.toWrapperError s.rollbackErr e)
                    translations := s.translations + 1 }
    | .cbReturned _ =>
      some { s with bg := .sendResult (bgOutcome env.toWrapperError s.rollbackErr e)
                    translations := s.translations + 1 }
    | _ => none
  | .handoffCtx =>
    match s.bg, s.fg with
    | .cbSendCtx c, .selecting => some { s with bg := .cbRecvFinish, fg := .ready, txCtx := some c }
    | _, _ => none
  | .handoffFinish =>
    match s.bg, s.fg with
    | .cbRecvFinish, .sendFinish isCommit d =>
      some { s with
        fg := .recvResult isCommit
        bg := match callbackAfterRecv s.rollbackErr s.heap (some d) with
              | .ret r => .cbReturned r
              | .crash m => .crashed m }
    | _, _ => none
  | .handoffResult =>
    match s.bg, s.fg with
    | .sendResult v, .selecting =>
      some { s with
        bg := .done
        resultSent := s.resultSent + 1
        fg := match selectResultCase env.toWrapperError v with
              | .ret err => .startFailed err
              | .crash m => .startPanicked m
        translations := if v = none then s.translations else s.translations + 1 }
    | .sendResult v, .recvResult isCommit =>
      some { s with
        bg := .done
        resultSent := s.resultSent + 1
        fg := .ready
        returns := s.returns ++ [finishReturn isCommit v] }
    | _, _ => none
  | .callCommit =>
    match s.fg with
    | .ready => some (enterFinish s true (transactionImpl.CommitEnter s.heap (sessionTx s)))
    | _ => none
  | .callRollback =>
    match s.fg with
    | .ready => some (enterFinish s false (transactionImpl.RollbackEnter s.heap (sessionTx s)))
    | _ => none
  | .callOp op =>
    match s.fg with
    | .ready => some (afterOp s (runOp env s.heap (sessionTx s) op))
    | _ => none

/-- A run: the steps of `evs` one after the other. -/
def run (env : Env) (s : State) : List Event → Option State
  | [] => some s
  | ev :: evs =>
    match step env s ev with
    | some s1 => run env s1 evs
    | none => none

/-- The states a session started at the free address `heap` can be in. -/
def Reachable (env : Env) (heap : Nat) (s : State) : Prop :=
  ∃ evs, run env (newTxExtractorInit heap) evs = some s

/-- A translation that leaves every error as it is. -/
def idEnv : Env :=
  { toWrapperError := fun e => e
    getMultiOps := fun ks f => f ks
    putMultiOps := fun ks f => f ks
    deleteMultiOps := fun ks f => f ks
    dsGetMulti := fun _ _ => none
    dsPutMulti := fun _ ks => (ks, none)
    dsDeleteMulti := fun _ _ => none
    toWrapperPendingKeys := fun ks => ks }

/-- An open session: started at the free address 7, the primitive handed out
the handle 3, nothing was called yet. -/
def openState : State :=
  { bg := .cbRecvFinish
    fg := .ready
    rollbackErr := errorsNew 7 rollbackMsg
    heap := 8
    txCtx := some 3
    attemptsLeft := 0
    primCalls := [bridgeOptions]
    resultSent := 0
    returns := []
    ops := []
    translations := 0 }

/-- A translation that wraps the text of every plain error. -/
def tagEnv : Env :=
  { idEnv with
    toWrapperError := fun e =>
      e.map fun g =>
        match g with
        | .plain p => .plain ⟨p.addr, "wrapped: " ++ p.msg⟩
        | .multi errs => .multi errs }

/-- An underlying datastore that accepts a call only when it is made with the
transaction context 3. -/
def txOnlyEnv : Env :=
  { idEnv with
    dsGetMulti := fun c _ => if c = some 3 then none else some (errorsNew 0 "no transaction")
    dsPutMulti := fun c ks =>
      if c = some 3 then (ks, none) else ([], some (errorsNew 0 "no transaction"))
    dsDeleteMulti := fun c _ => if c = some 3 then none else some (errorsNew 0 "no transaction") }

/-- The steps that open a session with the handle 3 and commit it. -/
def committedRun : List Event :=
  [.bgCallPrim, .primInvoke 3, .handoffCtx, .callCommit, .handoffFinish, .primReturn none,
    .handoffResult]

/-- A session whose primitive failed at startup: the goroutine is blocked in
the send of the outcome, the caller is still in the select. -/
def pendingState : State :=
  { bg := .sendResult (some (errorsNew 1 "backend unavailable"))
    fg := .selecting
    rollbackErr := errorsNew 7 rollbackMsg
    heap := 8
    txCtx := none
    attemptsLeft := 1
    primCalls := [bridgeOptions]
    resultSent := 0
    returns := []
    ops := []
    translations := 1 }

/-- A session whose caller is blocked in the send of `Rollback`. -/
def sendingState : State :=
  { openState with fg := .sendFinish false rollbackDecision }

/-- A session that was committed: `Commit` returned a token. -/
def committedState : State :=
  { openState with
    bg := .done
    resultSent := 1
    translations := 1
    returns := [.commit (some {}) none] }

/-- A Facade whose client context carries no extractor. -/
def bareTx : Option transactionImpl :=
  some { client := some { ctx := { value := .absent } } }

/-- The facts that hold while no value has been sent on `resultC` and the
handle has been handed over. -/
def Parked (s : State) : Prop :=
  s.primCalls = [bridgeOptions] ∧ s.attemptsLeft = 0 ∧ s.resultSent = 0 ∧ s.returns = [] ∧
    s.txCtx ≠ none

/-- The facts that hold once the goroutine has ended after a call of `Commit`
or `Rollback`. -/
def Finished (s : State) : Prop :=
  s.primCalls = [bridgeOptions] ∧ s.attemptsLeft = 0 ∧ s.resultSent = 1 ∧ s.returns.length = 1 ∧
    s.txCtx ≠ none

/-- The facts that hold while `newTxExtractor` is in its select and the
primitive has been called. -/
def Starting (s : State) : Prop :=
  s.primCalls = [bridgeOptions] ∧ s.resultSent = 0 ∧ s.returns = [] ∧ s.txCtx = none

/-- The states a call of `Commit` (`b`) or `Rollback` goes through when the
primitive returns `e`: blocked in the send of the decision, blocked in the
receive of the outcome, or returned. -/
def Finishing (env : Env) (rb : GoError) (b : Bool) (e : Error) (s : State) : Prop :=
  s.rollbackErr = rb ∧ s.attemptsLeft = 0 ∧
  match s.bg, s.fg with
  | .cbRecvFinish, .sendFinish b1 d => b1 = b ∧ d = decisionOf b ∧ s.returns = []
  | .cbReturned _, .recvResult b1 => b1 = b ∧ s.returns = []
  | .sendResult v, .recvResult b1 =>
    b1 = b ∧ s.returns = [] ∧ v = bgOutcome env.toWrapperError rb e
  | .done, _ => s.returns = [finishReturn b (bgOutcome env.toWrapperError rb e)]
  | _, _ => False

/-- The states `newTxExtractor` goes through when the primitive returns `e`
without invoking the callback. -/
def StartFailing (env : Env) (rb : GoError) (e : Error) (s : State) : Prop :=
  s.rollbackErr = rb ∧
  match s.bg, s.fg with
  | .start, .selecting => True
  | .inPrimitive, .selecting => True
  | .sendResult v, .selecting => v = bgOutcome env.toWrapperError rb e
  | .done, fg =>
    fg = (match selectResultCase env.toWrapperError (bgOutcome env.toWrapperError rb e) with
          | .ret err => FgLoc.startFailed err
          | .crash m => FgLoc.startPanicked m)
  | _, _ => False

/-- The shape of the states of a session started at the free address `heap`. -/
def Inv (heap : Nat) (s : State) : Prop :=
  s.rollbackErr = errorsNew heap rollbackMsg ∧ s.heap = heap + 1 ∧
  match s.bg, s.fg with
  | .start, .selecting =>
    s.primCalls = [] ∧ s.resultSent = 0 ∧ s.returns = [] ∧ s.txCtx = none
  | .inPrimitive, .selecting => Starting s ∧ s.attemptsLeft = 1
  | .cbSendCtx _, .selecting => Starting s ∧ s.attemptsLeft = 0
  | .sendResult _, .selecting => Starting s
  | .cbRecvFinish, .ready => Parked s
  | .cbRecvFinish, .sendFinish b d =>
    Parked s ∧ d = decisionOf b
  | .cbRecvFinish, .crashed _ => Parked s
  | .cbReturned r, .recvResult b =>
    Parked s ∧ r = (if b then none else some s.rollbackErr)
  | .sendResult _, .recvResult _ => Parked s
  | .done, .startFailed _ =>
    s.primCalls = [bridgeOptions] ∧ s.resultSent = 1 ∧ s.returns = [] ∧ s.txCtx = none
  | .done, .startPanicked _ =>
    s.primCalls = [bridgeOptions] ∧ s.resultSent = 1 ∧ s.returns = [] ∧ s.txCtx = none
  | .done, .ready => Finished s
  | .done, .sendFinish b d =>
    Finished s ∧ d = decisionOf b
  | .done, .crashed _ => Finished s
  | _, _ => False

end AEDatastore

namespace AEDatastore

/-! ## Lemmas on the Facade of a session -/

theorem commitEnter_sessionTx (heap : Nat) (s : State) :
    transactionImpl.CommitEnter heap (sessionTx s) = .ret (.send commitDecision) := by
  rfl

theorem rollbackEnter_sessionTx (heap : Nat) (s : State) :
    transactionImpl.RollbackEnter heap (sessionTx s) = .ret (.send rollbackDecision) := by
  rfl

theorem enterFinish_commit (s : State) :
    enterFinish s true (transactionImpl.CommitEnter s.heap (sessionTx s)) =
      { s with fg := .sendFinish true commitDecision } := by
  rfl

theorem enterFinish_rollback (s : State) :
    enterFinish s false (transactionImpl.RollbackEnter s.heap (sessionTx s)) =
      { s with fg := .sendFinish false rollbackDecision } := by
  rfl

theorem inv_init (heap : Nat) : Inv heap (newTxExtractorInit heap) := by
  simp [Inv, newTxExtractorInit]

set_option maxHeartbeats 1000000 in
theorem inv_step (env : Env) (heap : Nat) (s s1 : State) (ev : Event)
    (hinv : Inv heap s) (hstep : step env s ev = some s1) : Inv heap s1 := by
  obtain ⟨bg, fg, rb, hp, tc, al, pc, rs, rets, ops, tr⟩ := s
  cases ev <;> cases bg <;> cases fg <;>
    simp [step, Inv, Parked, Finished, Starting, enterFinish, commitEnter_sessionTx,
      rollbackEnter_sessionTx, bridgeOptions, decisionOf] at hinv hstep
  case handoffFinish.cbRecvFinish.sendFinish b d =>
    subst hstep
    obtain ⟨h1, h2, h3, h4⟩ := hinv
    cases b <;>
      simp_all [Inv, Parked, bridgeOptions, decisionOf, callbackAfterRecv, commitDecision, rollbackDecision]
  case handoffResult.sendResult.selecting v =>
    subst hstep
    cases hv : selectResultCase env.toWrapperError v <;>
      simp_all [Inv, Starting, bridgeOptions, decisionOf]
  case callOp.cbRecvFinish.ready op =>
    subst hstep
    generalize runOp env _ _ op = r
    unfold afterOp
    split <;> simp_all [Inv, Parked, bridgeOptions, decisionOf]
  case callOp.done.ready op =>
    subst hstep
    generalize runOp env _ _ op = r
    unfold afterOp
    split <;> simp_all [Inv, Finished, bridgeOptions, decisionOf]
  all_goals first
    | (subst hstep
       simp_all [Inv, Parked, Finished, Starting, bridgeOptions, decisionOf])
    | (obtain ⟨_, rfl⟩ := hstep
       simp_all [Inv, Parked, Finished, Starting, bridgeOptions, decisionOf])

theorem inv_run (env : Env) (heap : Nat) (evs : List Event) :
    ∀ s s1 : State, Inv heap s → run env s evs = some s1 → Inv heap s1 := by
  induction evs with
  | nil =>
    intro s s1 hinv hrun
    simp only [run, Option.some.injEq] at hrun
    exact hrun ▸ hinv
  | cons ev evs ih =>
    intro s s1 hinv hrun
    simp only [run] at hrun
    cases hst : step env s ev with
    | none => simp [hst] at hrun
    | some s2 =>
      rw [hst] at hrun
      exact ih s2 s1 (inv_step env heap s s2 ev hinv hst) hrun

theorem reachable_inv (env : Env) (heap : Nat) (s : State) (hr : Reachable env heap s) :
    Inv heap s := by
  obtain ⟨evs, hrun⟩ := hr
  exact inv_run env heap evs _ s (inv_init heap) hrun

theorem run_append (env : Env) (evs1 evs2 : List Event) :
    ∀ s s1 : State, run env s evs1 = some s1 →
      run env s (evs1 ++ evs2) = run env s1 evs2 := by
  induction evs1 with
  | nil =>
    intro s s1 h
    simp only [run, Option.some.injEq] at h
    simp [h]
  | cons ev evs ih =>
    intro s s1 h
    simp only [run] at h
    cases hst : step env s ev with
    | none => simp [hst] at h
    | some s2 =>
      rw [hst] at h
      simp only [List.cons_append, run, hst]
      exact ih s2 s1 h

theorem reachable_step (env : Env) (heap : Nat) (s s1 : State) (ev : Event)
    (hr : Reachable env heap s) (hst : step env s ev = some s1) : Reachable env heap s1 := by
  obtain ⟨evs, hrun⟩ := hr
  refine ⟨evs ++ [ev], ?_⟩
  rw [run_append env evs [ev] _ s hrun]
  simp [run, hst]

/-- Once the goroutine has ended, no step moves it or changes what it left. -/
theorem step_bg_done (env : Env) (s s1 : State) (ev : Event) (hd : s.bg = .done)
    (hst : step env s ev = some s1) :
    s1.bg = .done ∧ s1.resultSent = s.resultSent ∧ s1.returns = s.returns ∧
      s1.txCtx = s.txCtx ∧ s1.primCalls = s.primCalls := by
  obtain ⟨bg, fg, rb, hp, tc, al, pc, rs, rets, ops, tr⟩ := s
  simp only at hd
  subst hd
  cases ev <;> cases fg <;>
    simp [step, enterFinish, commitEnter_sessionTx, rollbackEnter_sessionTx] at hst
  case callOp.ready op =>
    subst hst
    generalize runOp env _ _ op = r
    unfold afterOp
    split <;> simp
  all_goals
    subst hst
    simp

/-- A call of `Commit` or `Rollback` stays on its path, whatever is scheduled,
as long as the primitive returns `e`. -/
theorem finishing_step (env : Env) (rb : GoError) (b : Bool) (e : Error) (s s1 : State)
    (ev : Event) (hf : Finishing env rb b e s) (hst : step env s ev = some s1)
    (hev : ∀ x, ev = .primReturn x → x = e) : Finishing env rb b e s1 := by
  obtain ⟨bg, fg, rb0, hp, tc, al, pc, rs, rets, ops, tr⟩ := s
  cases ev <;> cases bg <;> cases fg <;>
    simp [step, Finishing, enterFinish, commitEnter_sessionTx, rollbackEnter_sessionTx] at hf hst
  case primReturn.cbReturned.recvResult x r b1 =>
    subst hst
    have hx := hev x rfl
    simp_all [Finishing]
  case handoffFinish.cbRecvFinish.sendFinish b1 d =>
    subst hst
    obtain ⟨h1, h2, h3, h4, h5⟩ := hf
    cases b <;>
      simp_all [Finishing, decisionOf, callbackAfterRecv, commitDecision, rollbackDecision]
  case callOp.done.ready op =>
    subst hst
    generalize runOp env _ _ op = r
    unfold afterOp
    split <;> simp_all [Finishing]
  all_goals first
    | (subst hst
       simp_all [Finishing])
    | (obtain ⟨_, rfl⟩ := hst
       simp_all [Finishing])

theorem finishing_run (env : Env) (rb : GoError) (b : Bool) (e : Error) (evs : List Event) :
    ∀ s s1 : State, Finishing env rb b e s → run env s evs = some s1 →
      (∀ x, Event.primReturn x ∈ evs → x = e) → Finishing env rb b e s1 := by
  induction evs with
  | nil =>
    intro s s1 hf hrun _
    simp only [run, Option.some.injEq] at hrun
    exact hrun ▸ hf
  | cons ev evs ih =>
    intro s s1 hf hrun hev
    simp only [run] at hrun
    cases hst : step env s ev with
    | none => simp [hst] at hrun
    | some s2 =>
      rw [hst] at hrun
      refine ih s2 s1 (finishing_step env rb b e s s2 ev hf hst ?_) hrun ?_
      · intro x hx
        exact hev x (by simp [hx])
      · intro x hx
        exact hev x (by simp [hx])

/-- On the path of a call, nothing was returned yet or the call returned. -/
theorem finishing_returns (env : Env) (rb : GoError) (b : Bool) (e : Error) (s : State)
    (hf : Finishing env rb b e s) :
    s.returns = [] ∨ s.returns = [finishReturn b (bgOutcome env.toWrapperError rb e)] := by
  obtain ⟨bg, fg, rb0, hp, tc, al, pc, rs, rets, ops, tr⟩ := s
  cases bg <;> cases fg <;> simp_all [Finishing]

/-- An open session that enters `Commit` or `Rollback` is on the path of that call. -/
theorem finishing_enter (env : Env) (heap : Nat) (b : Bool) (e : Error) (s : State)
    (hinv : Inv heap s) (hfg : s.fg = .ready) (hret : s.returns = []) :
    Finishing env s.rollbackErr b e { s with fg := .sendFinish b (decisionOf b) } := by
  obtain ⟨bg, fg, rb0, hp, tc, al, pc, rs, rets, ops, tr⟩ := s
  simp only at hfg hret
  subst hfg hret
  cases bg <;> simp_all [Inv, Finishing, Parked, Finished]

/-- An open session: the callback is parked in the receive on `finishC`. -/
theorem open_parked (heap : Nat) (s : State) (hinv : Inv heap s) (hfg : s.fg = .ready)
    (hret : s.returns = []) : s.bg = .cbRecvFinish ∧ s.attemptsLeft = 0 := by
  obtain ⟨bg, fg, rb0, hp, tc, al, pc, rs, rets, ops, tr⟩ := s
  simp only at hfg hret
  subst hfg hret
  cases bg <;> simp_all [Inv, Parked, Finished]

/-- The run of a call of `Commit` (`b`) or `Rollback` on an open session, the
primitive returning `e`. -/
theorem finish_run_eq (env : Env) (heap : Nat) (b : Bool) (e : Error) (s : State)
    (hinv : Inv heap s) (hfg : s.fg = .ready) (hret : s.returns = []) :
    run env s [if b then .callCommit else .callRollback, .handoffFinish] =
      some { s with fg := .recvResult b
                    bg := .cbReturned (if b then none else some s.rollbackErr) } ∧
    run env s [if b then .callCommit else .callRollback, .handoffFinish, .primReturn e,
        .handoffResult] =
      some { s with fg := .ready
                    bg := .done
                    resultSent := s.resultSent + 1
                    translations := s.translations + 1
                    returns := [finishReturn b (bgOutcome env.toWrapperError s.rollbackErr e)] } := by
  obtain ⟨hbg, _⟩ := open_parked heap s hinv hfg hret
  obtain ⟨bg, fg, rb0, hp, tc, al, pc, rs, rets, ops, tr⟩ := s
  simp only at hfg hret hbg
  subst hfg hret hbg
  cases b <;>
    simp [run, step, enterFinish, commitEnter_sessionTx, rollbackEnter_sessionTx,
      callbackAfterRecv, commitDecision, rollbackDecision]

/-- C1: on an open session, `Rollback` makes the callback return the session's
rollback sentinel; when the primitive returns exactly that error, the goroutine
replaces it by nil and, `toWrapperError(nil)` being nil, `txExtractor.rollback`
and `transactionImpl.Rollback` return nil.  This holds for the run in which the
four steps follow each other and for every other schedule. -/
theorem rollback_returns_nil (env : Env) (heap : Nat) (s : State)
    (hr : Reachable env heap s) (hopen : s.fg = .ready) (hnone : s.returns = [])
    (hnil : env.toWrapperError none = none) :
    (∃ s2, run env s [.callRollback, .handoffFinish] = some s2 ∧
        s2.fg = .recvResult false ∧ s2.bg = .cbReturned (some s.rollbackErr)) ∧
    (∃ s4, run env s [.callRollback, .handoffFinish, .primReturn (some s.rollbackErr),
          .handoffResult] = some s4 ∧
        s4.fg = .ready ∧ s4.returns = [.rollback none]) ∧
    (∀ evs s1, run env s (.callRollback :: evs) = some s1 →
        (∀ x, Event.primReturn x ∈ evs → x = some s.rollbackErr) →
        s1.returns = [] ∨ s1.returns = [.rollback none]) := by
  have hinv := reachable_inv env heap s hr
  have hval : finishReturn false (bgOutcome env.toWrapperError s.rollbackErr
      (some s.rollbackErr)) = .rollback none := by
    simp [finishReturn, bgOutcome, hnil, transactionImpl.RollbackFinish]
  obtain ⟨h2, h4⟩ := finish_run_eq env heap false (some s.rollbackErr) s hinv hopen hnone
  simp only [Bool.false_eq_true, if_false] at h2 h4
  refine ⟨⟨_, h2, rfl, rfl⟩, ⟨_, h4, rfl, ?_⟩, ?_⟩
  · simp [hval]
  · intro evs s1 hrun hev
    have hst : step env s .callRollback =
        some { s with fg := .sendFinish false (decisionOf false) } := by
      simp [step, hopen, enterFinish_rollback, decisionOf]
    simp only [run, hst] at hrun
    have hf := finishing_run env s.rollbackErr false (some s.rollbackErr) evs _ s1
      (finishing_enter env heap false _ s hinv hopen hnone) hrun hev
    have := finishing_returns env _ _ _ s1 hf
    rwa [hval] at this

theorem openState_reachable (env : Env) : Reachable env 7 openState :=
  ⟨[.bgCallPrim, .primInvoke 3, .handoffCtx], rfl⟩

theorem rollback_returns_nil_witness :
    ∃ s4, run idEnv openState [.callRollback, .handoffFinish,
          .primReturn (some openState.rollbackErr), .handoffResult] = some s4 ∧
        s4.fg = .ready ∧ s4.returns = [.rollback none] :=
  (rollback_returns_nil idEnv 7 openState (openState_reachable idEnv) rfl rfl rfl).2.1

/-- C2: on an open session, after `Commit` delivered its decision the callback
returns nil; whatever `e` the primitive then returns (`e` is not the session's
private sentinel, which the primitive never saw), `Commit` returns a commit
token and a nil error when `e` is nil, and a nil token and the error
`toWrapperError(e)` when `e` is not nil; never both a token and an error, and
never neither.  The translation keeps nil nil and an error an error. -/
theorem commit_token_xor_error (env : Env) (heap : Nat) (s : State) (e : Error)
    (hr : Reachable env heap s) (hopen : s.fg = .ready) (hnone : s.returns = [])
    (hnil : env.toWrapperError none = none)
    (hsome : ∀ g, env.toWrapperError (some g) ≠ none)
    (hfresh : e ≠ some s.rollbackErr) :
    (∃ s2, run env s [.callCommit, .handoffFinish] = some s2 ∧
        s2.fg = .recvResult true ∧ s2.bg = .cbReturned none) ∧
    (∃ s4 token err, run env s [.callCommit, .handoffFinish, .primReturn e,
          .handoffResult] = some s4 ∧
        s4.fg = .ready ∧ s4.returns = [.commit token err] ∧
        (e = none → token = some {} ∧ err = none) ∧
        (e ≠ none → token = none ∧ err = env.toWrapperError e ∧ err ≠ none)) ∧
    (∀ evs s1, run env s (.callCommit :: evs) = some s1 →
        (∀ x, Event.primReturn x ∈ evs → x = e) →
        s1.returns = [] ∨
          s1.returns = [if e = none then .commit (some {}) none
                        else .commit none (env.toWrapperError e)]) ∧
    (∀ v : Error, ((transactionImpl.CommitFinish v).1 = none ↔
        (transactionImpl.CommitFinish v).2 ≠ none)) := by
  have hinv := reachable_inv env heap s hr
  have hout : bgOutcome env.toWrapperError s.rollbackErr e = env.toWrapperError e := by
    simp [bgOutcome, hfresh]
  have hval : finishReturn true (bgOutcome env.toWrapperError s.rollbackErr e) =
      (if e = none then .commit (some {}) none else .commit none (env.toWrapperError e)) := by
    rw [hout]
    cases e with
    | none => simp [finishReturn, hnil, transactionImpl.CommitFinish]
    | some g => simp [finishReturn, hsome g, transactionImpl.CommitFinish]
  obtain ⟨h2, h4⟩ := finish_run_eq env heap true e s hinv hopen hnone
  simp only [if_true] at h2 h4
  refine ⟨⟨_, h2, rfl, rfl⟩, ?_, ?_, ?_⟩
  · cases e with
    | none =>
      refine ⟨_, some {}, none, h4, rfl, ?_, ?_, ?_⟩
      · simpa using hval
      · simp
      · simp
    | some g =>
      refine ⟨_, none, env.toWrapperError (some g), h4, rfl, ?_, ?_, ?_⟩
      · simpa using hval
      · simp
      · simp [hsome g]
  · intro evs s1 hrun hev
    have hst : step env s .callCommit =
        some { s with fg := .sendFinish true (decisionOf true) } := by
      simp [step, hopen, enterFinish_commit, decisionOf]
    simp only [run, hst] at hrun
    have hf := finishing_run env s.rollbackErr true e evs _ s1
      (finishing_enter env heap true _ s hinv hopen hnone) hrun hev
    have := finishing_returns env _ _ _ s1 hf
    rwa [hval] at this
  · intro v
    cases v <;> simp [transactionImpl.CommitFinish]

theorem commit_token_xor_error_witness :
    ∃ s4 token err, run idEnv openState [.callCommit, .handoffFinish,
          .primReturn (some (errorsNew 1 "concurrent transaction")), .handoffResult] = some s4 ∧
        s4.fg = .ready ∧ s4.returns = [.commit token err] ∧
        (some (errorsNew 1 "concurrent transaction") = none → token = some {} ∧ err = none) ∧
        (some (errorsNew 1 "concurrent transaction") ≠ none →
          token = none ∧ err = idEnv.toWrapperError (some (errorsNew 1 "concurrent transaction")) ∧
            err ≠ none) :=
  (commit_token_xor_error idEnv 7 openState (some (errorsNew 1 "concurrent transaction"))
    (openState_reachable idEnv) rfl rfl rfl (fun g => by simp [idEnv])
    (by decide)).2.1

/-- C5: in every state of a session the log of calls of
`datastore.RunInTransaction` holds at most one call, made with `XG = true` and
`Attempts = 1`; it holds exactly that one call as soon as the goroutine has
made it, in particular once `newTxExtractor` has left its select; and from
then on the call is never enabled again, whatever error the primitive
returned. -/
theorem primitive_invoked_once (env : Env) (heap : Nat) (s : State)
    (hr : Reachable env heap s) :
    (∀ o ∈ s.primCalls, o.XG = true ∧ o.Attempts = 1) ∧
    s.primCalls.length ≤ 1 ∧
    (s.bg ≠ .start → s.primCalls = [{ XG := true, Attempts := 1 }]) ∧
    (s.fg ≠ .selecting → s.primCalls = [{ XG := true, Attempts := 1 }]) ∧
    (s.bg ≠ .start → step env s .bgCallPrim = none) ∧
    (∀ e s1 evs s2, step env s (.primReturn e) = some s1 → run env s1 evs = some s2 →
        s2.primCalls = [{ XG := true, Attempts := 1 }]) := by
  have key : ∀ t : State, Inv heap t →
      (t.bg = .start ∧ t.fg = .selecting ∧ t.primCalls = []) ∨
        (t.bg ≠ .start ∧ t.primCalls = [{ XG := true, Attempts := 1 }]) := by
    intro t ht
    obtain ⟨bg, fg, rb0, hp, tc, al, pc, rs, rets, ops, tr⟩ := t
    cases bg <;> cases fg <;> simp_all [Inv, Parked, Finished, Starting, bridgeOptions]
  have hinv := reachable_inv env heap s hr
  refine ⟨?_, ?_, ?_, ?_, ?_, ?_⟩
  · rcases key s hinv with ⟨_, _, h⟩ | ⟨_, h⟩ <;> simp [h]
  · rcases key s hinv with ⟨_, _, h⟩ | ⟨_, h⟩ <;> simp [h]
  · rcases key s hinv with ⟨h, _, _⟩ | ⟨_, h⟩
    · intro hne
      exact absurd h hne
    · intro _
      exact h
  · rcases key s hinv with ⟨_, h, _⟩ | ⟨_, h⟩
    · intro hne
      exact absurd h hne
    · intro _
      exact h
  · intro hne
    cases hb : s.bg <;> simp_all [step]
  · intro e s1 evs s2 hst hrun
    have hinv2 := inv_run env heap evs s1 s2 (inv_step env heap s s1 _ hinv hst) hrun
    rcases key s2 hinv2 with ⟨h, _, _⟩ | ⟨_, h⟩
    · exfalso
      have hne : ∀ (evs : List Event) (t t2 : State), t.bg ≠ .start → run env t evs = some t2 →
          t2.bg ≠ .start := by
        intro evs
        induction evs with
        | nil =>
          intro t t2 ht hrun
          simp only [run, Option.some.injEq] at hrun
          exact hrun ▸ ht
        | cons ev evs ih =>
          intro t t2 ht hrun
          simp only [run] at hrun
          cases hst2 : step env t ev with
          | none => simp [hst2] at hrun
          | some t1 =>
            rw [hst2] at hrun
            refine ih t1 t2 ?_ hrun
            obtain ⟨bg, fg, rb0, hp, tc, al, pc, rs, rets, ops, tr⟩ := t
            cases ev <;> cases bg <;> cases fg <;>
              simp [step, enterFinish, commitEnter_sessionTx, rollbackEnter_sessionTx] at hst2 ht
            all_goals first
              | (subst hst2
                 simp [afterOp]
                 try split
                 all_goals simp)
              | (obtain ⟨_, rfl⟩ := hst2
                 simp)
      have hs1 : s1.bg ≠ .start := by
        obtain ⟨bg, fg, rb0, hp, tc, al, pc, rs, rets, ops, tr⟩ := s
        cases bg <;> simp [step] at hst <;> subst hst <;> simp
      exact hne evs s1 s2 hs1 hrun h
    · exact h

/-- C8: in every state of a session at most one value was sent on `resultC`;
exactly one was sent if and only if the goroutine has ended; when the primitive
has returned and the send is pending, the rendezvous on `resultC` is enabled,
it is the only enabled step, and it ends the goroutine with one value sent;
once the goroutine has ended no rendezvous is enabled and no step moves the
goroutine, the count of sends or the transaction context. -/
theorem result_sent_exactly_once (env : Env) (heap : Nat) (s : State)
    (hr : Reachable env heap s) :
    s.resultSent ≤ 1 ∧
    (s.resultSent = 1 ↔ s.bg = .done) ∧
    (∀ v, s.bg = .sendResult v →
        s.resultSent = 0 ∧
        (∃ s1, step env s .handoffResult = some s1 ∧ s1.bg = .done ∧ s1.resultSent = 1) ∧
        (∀ ev s1, step env s ev = some s1 → ev = .handoffResult)) ∧
    (s.bg = .done →
        step env s .handoffCtx = none ∧ step env s .handoffFinish = none ∧
        step env s .handoffResult = none ∧
        (∀ ev s1, step env s ev = some s1 →
          s1.bg = .done ∧ s1.resultSent = s.resultSent ∧ s1.txCtx = s.txCtx)) := by
  have hinv := reachable_inv env heap s hr
  refine ⟨?_, ?_, ?_, ?_⟩
  · obtain ⟨bg, fg, rb0, hp, tc, al, pc, rs, rets, ops, tr⟩ := s
    cases bg <;> cases fg <;> simp_all [Inv, Parked, Finished, Starting]
  · obtain ⟨bg, fg, rb0, hp, tc, al, pc, rs, rets, ops, tr⟩ := s
    cases bg <;> cases fg <;> simp_all [Inv, Parked, Finished, Starting]
  · intro v hv
    obtain ⟨bg, fg, rb0, hp, tc, al, pc, rs, rets, ops, tr⟩ := s
    simp only at hv
    subst hv
    refine ⟨?_, ?_, ?_⟩
    · cases fg <;> simp_all [Inv, Parked, Finished, Starting]
    · cases fg <;> simp_all [Inv, Parked, Finished, Starting, step]
    · intro ev s1 hst
      cases ev <;> cases fg <;> simp_all [Inv, Parked, Finished, Starting, step]
  · intro hd
    refine ⟨?_, ?_, ?_, ?_⟩
    · simp [step, hd]
    · simp [step, hd]
    · simp [step, hd]
    · intro ev s1 hst
      obtain ⟨h1, h2, _, h4, _⟩ := step_bg_done env s s1 ev hd hst
      exact ⟨h1, h2, h4⟩

/-- C9: `txExtractor.commit` sends `txResult{commit: true, rollback: false}` and
`txExtractor.rollback` sends `txResult{commit: false, rollback: true}`; in every
state of a session the decision a caller is blocked sending is one of these
two; the callback returns nil on the first and the rollback sentinel on the
second, so the rendezvous on `finishC` never takes the panic branch, and the
goroutine is never in the panicked state. -/
theorem decision_commit_or_rollback (env : Env) (heap : Nat) (s : State)
    (hr : Reachable env heap s) :
    (∀ ext : txExtractor,
        txExtractor.commit (some ext) = .ret { commit := true, rollback := false } ∧
        txExtractor.rollback (some ext) = .ret { commit := false, rollback := true }) ∧
    (∀ b d, s.fg = .sendFinish b d →
        d = (if b then { commit := true, rollback := false }
             else { commit := false, rollback := true })) ∧
    callbackAfterRecv s.rollbackErr s.heap (some { commit := true, rollback := false }) =
      .ret none ∧
    callbackAfterRecv s.rollbackErr s.heap (some { commit := false, rollback := true }) =
      .ret (some s.rollbackErr) ∧
    (∀ b d s1, s.fg = .sendFinish b d → step env s .handoffFinish = some s1 →
        s1.bg = .cbReturned (if b then none else some s.rollbackErr)) ∧
    (∀ m, s.bg ≠ .crashed m) := by
  have hinv := reachable_inv env heap s hr
  refine ⟨?_, ?_, ?_, ?_, ?_, ?_⟩
  · intro ext
    exact ⟨rfl, rfl⟩
  · intro b d hfg
    obtain ⟨bg, fg, rb0, hp, tc, al, pc, rs, rets, ops, tr⟩ := s
    simp only at hfg
    subst hfg
    cases bg <;> cases b <;>
      simp_all [Inv, Parked, Finished, Starting, decisionOf, commitDecision, rollbackDecision]
  · simp [callbackAfterRecv]
  · simp [callbackAfterRecv]
  · intro b d s1 hfg hst
    obtain ⟨bg, fg, rb0, hp, tc, al, pc, rs, rets, ops, tr⟩ := s
    simp only at hfg
    subst hfg
    cases bg <;> simp [step] at hst
    subst hst
    cases b <;>
      simp_all [Inv, Parked, decisionOf, commitDecision, rollbackDecision, callbackAfterRecv]
  · intro m hm
    obtain ⟨bg, fg, rb0, hp, tc, al, pc, rs, rets, ops, tr⟩ := s
    simp only at hm
    subst hm
    cases fg <;> simp_all [Inv]

/-- C7: when the primitive returns `err`, the goroutine goes on to send
`bgOutcome` of it on `resultC`; with a translation that keeps nil nil and an
error an error, that value is nil if and only if `err` is nil or is the
session's own rollback sentinel; every other error is sent as
`toWrapperError(err)`, which is not nil: so is an error allocated elsewhere
with the text "rollback requested", and so is the "channel closed" error the
callback returns when `finishC` is closed. -/
theorem outcome_nil_iff_nil_or_sentinel (env : Env) (heap : Nat) (s : State) (err : Error)
    (hr : Reachable env heap s)
    (hnil : env.toWrapperError none = none)
    (hsome : ∀ g, env.toWrapperError (some g) ≠ none) :
    (∀ s1, step env s (.primReturn err) = some s1 →
        s1.bg = .sendResult (bgOutcome env.toWrapperError s.rollbackErr err)) ∧
    (bgOutcome env.toWrapperError s.rollbackErr err = none ↔
        (err = none ∨ err = some s.rollbackErr)) ∧
    (err ≠ none → err ≠ some s.rollbackErr →
        bgOutcome env.toWrapperError s.rollbackErr err = env.toWrapperError err ∧
        env.toWrapperError err ≠ none) ∧
    (∀ a, a ≠ heap →
        bgOutcome env.toWrapperError s.rollbackErr (some (errorsNew a "rollback requested")) =
          env.toWrapperError (some (errorsNew a "rollback requested"))) ∧
    callbackAfterRecv s.rollbackErr s.heap none =
      .ret (some (errorsNew s.heap "channel closed")) ∧
    bgOutcome env.toWrapperError s.rollbackErr (some (errorsNew s.heap "channel closed")) =
      env.toWrapperError (some (errorsNew s.heap "channel closed")) := by
  have hinv := reachable_inv env heap s hr
  obtain ⟨hrb, hheap, _⟩ := hinv
  refine ⟨?_, ?_, ?_, ?_, ?_, ?_⟩
  · intro s1 hst
    obtain ⟨bg, fg, rb0, hp, tc, al, pc, rs, rets, ops, tr⟩ := s
    cases bg <;> simp [step] at hst <;> subst hst <;> rfl
  · cases err with
    | none => simp [bgOutcome, hnil]
    | some g =>
      by_cases hg : g = s.rollbackErr
      · simp [bgOutcome, hg, hnil]
      · simp [bgOutcome, hg, hsome g]
  · intro h1 h2
    cases err with
    | none => exact absurd rfl h1
    | some g => simp [bgOutcome, h2, hsome g]
  · intro a ha
    simp [bgOutcome, hrb, errorsNew, ha]
  · rfl
  · simp [bgOutcome, hrb, hheap, errorsNew]

theorem pendingState_reachable : Reachable idEnv 7 pendingState :=
  ⟨[.bgCallPrim, .primReturn (some (errorsNew 1 "backend unavailable"))], rfl⟩

theorem sendingState_reachable : Reachable idEnv 7 sendingState :=
  ⟨[.bgCallPrim, .primInvoke 3, .handoffCtx, .callRollback], rfl⟩

theorem committedState_reachable (env : Env) (h : env.toWrapperError none = none) :
    Reachable env 7 committedState := by
  refine ⟨committedRun, ?_⟩
  simp [committedRun, run, step, newTxExtractorInit, enterFinish, commitEnter_sessionTx,
    callbackAfterRecv, commitDecision, bgOutcome, h, finishReturn,
    transactionImpl.CommitFinish, committedState, openState, errorsNew, bridgeOptions]

theorem primitive_invoked_once_witness :
    openState.primCalls = [{ XG := true, Attempts := 1 }] :=
  (primitive_invoked_once idEnv 7 openState (openState_reachable idEnv)).2.2.1 (by decide)

theorem result_sent_exactly_once_witness :
    ∃ s1, step idEnv pendingState .handoffResult = some s1 ∧ s1.bg = .done ∧
      s1.resultSent = 1 :=
  ((result_sent_exactly_once idEnv 7 pendingState pendingState_reachable).2.2.1 _ rfl).2.1

theorem decision_commit_or_rollback_witness :
    rollbackDecision =
      (if false = true then ({ commit := true, rollback := false } : txResult)
       else { commit := false, rollback := true }) :=
  (decision_commit_or_rollback idEnv 7 sendingState sendingState_reachable).2.1
    false rollbackDecision rfl

theorem outcome_nil_iff_nil_or_sentinel_witness :
    bgOutcome idEnv.toWrapperError openState.rollbackErr
        (some (errorsNew 9 "rollback requested")) =
      idEnv.toWrapperError (some (errorsNew 9 "rollback requested")) :=
  (outcome_nil_iff_nil_or_sentinel idEnv 7 openState none (openState_reachable idEnv) rfl
    (fun g => by simp [idEnv])).2.2.2.1 9 (by decide)

/-! ## Startup failure -/

theorem startFailing_step (env : Env) (rb : GoError) (e : Error) (s s1 : State) (ev : Event)
    (hf : StartFailing env rb e s) (hst : step env s ev = some s1)
    (hinvoke : ∀ c, ev ≠ .primInvoke c) (hev : ∀ x, ev = .primReturn x → x = e) :
    StartFailing env rb e s1 := by
  obtain ⟨bg, fg, rb0, hp, tc, al, pc, rs, rets, ops, tr⟩ := s
  cases ev <;> cases bg <;> cases fg <;>
    simp [step, StartFailing, enterFinish, commitEnter_sessionTx, rollbackEnter_sessionTx]
      at hf hst hinvoke
  case primReturn.inPrimitive.selecting x =>
    subst hst
    have hx := hev x rfl
    simp_all [StartFailing]
  case handoffResult.sendResult.selecting v =>
    subst hst
    simp_all [StartFailing]
  all_goals first
    | (subst hst
       simp_all [StartFailing]
       done)
    | (obtain ⟨_, rfl⟩ := hst
       simp_all [StartFailing]
       done)
    | (cases hf.2)
    | (split at hf <;> simp_all)

theorem startFailing_run (env : Env) (rb : GoError) (e : Error) (evs : List Event) :
    ∀ s s1 : State, StartFailing env rb e s → run env s evs = some s1 →
      (∀ c, Event.primInvoke c ∉ evs) → (∀ x, Event.primReturn x ∈ evs → x = e) →
      StartFailing env rb e s1 := by
  induction evs with
  | nil =>
    intro s s1 hf hrun _ _
    simp only [run, Option.some.injEq] at hrun
    exact hrun ▸ hf
  | cons ev evs ih =>
    intro s s1 hf hrun hinvoke hev
    simp only [run] at hrun
    cases hst : step env s ev with
    | none => simp [hst] at hrun
    | some s2 =>
      rw [hst] at hrun
      refine ih s2 s1 (startFailing_step env rb e s s2 ev hf hst ?_ ?_) hrun ?_ ?_
      · intro c hc
        exact hinvoke c (by simp [hc])
      · intro x hx
        exact hev x (by simp [hx])
      · intro c hc
        exact hinvoke c (by simp [hc])
      · intro x hx
        exact hev x (by simp [hx])

/-- C6, evaluated: on a startup failure `boom` the bridge calls `toWrapperError`
twice before `newTxExtractor` returns (once in the goroutine before the send on
`resultC`, once more in the select on the received value), not once as
`txExtractor.commit` and `txExtractor.rollback` do with the value they receive;
with a translation that wraps the text of an error, `boom` reaches the caller
wrapped twice, which is not the single translation of `boom`. -/
theorem startup_failure_not_single_translation :
    (run idEnv (newTxExtractorInit 7)
        [.bgCallPrim, .primReturn (some (errorsNew 1 "boom")), .handoffResult]).map
      (fun s => (s.fg, s.translations)) =
      some (.startFailed (some (errorsNew 1 "boom")), 2) ∧
    (run tagEnv (newTxExtractorInit 7)
        [.bgCallPrim, .primReturn (some (errorsNew 1 "boom")), .handoffResult]).map
      (fun s => s.fg) =
      some (.startFailed (some (errorsNew 1 "wrapped: wrapped: boom"))) ∧
    tagEnv.toWrapperError (some (errorsNew 1 "boom")) = some (errorsNew 1 "wrapped: boom") ∧
    FgLoc.startFailed (some (errorsNew 1 "wrapped: wrapped: boom")) ≠
      FgLoc.startFailed (tagEnv.toWrapperError (some (errorsNew 1 "boom"))) := by
  refine ⟨?_, ?_, ?_, ?_⟩
  · decide
  · decide
  · decide
  · decide

/-- The startup path of `newTxExtractor` for every translation: when the
primitive returns a non-nil error `g` without invoking the callback (`g` is not
the session's private sentinel, and its translation is not nil), the caller
gets a nil session and `toWrapperError` applied twice to `g`, after two calls
of `toWrapperError`; that is the single translation only when the translation
leaves `toWrapperError(g)` as it is.  This holds for every schedule in which
the callback is not invoked. -/
theorem startup_failure_translated_again (env : Env) (heap : Nat) (g : GoError)
    (hfresh : g ≠ errorsNew heap rollbackMsg)
    (hnn : env.toWrapperError (some g) ≠ none) :
    (∃ s3, run env (newTxExtractorInit heap)
          [.bgCallPrim, .primReturn (some g), .handoffResult] = some s3 ∧
        s3.fg = .startFailed (env.toWrapperError (env.toWrapperError (some g))) ∧
        s3.translations = 2 ∧ s3.bg = .done ∧ s3.txCtx = none ∧ s3.returns = []) ∧
    (∀ evs s1, run env (newTxExtractorInit heap) evs = some s1 →
        (∀ c, Event.primInvoke c ∉ evs) → (∀ x, Event.primReturn x ∈ evs → x = some g) →
        s1.fg = .selecting ∨
          s1.fg = .startFailed (env.toWrapperError (env.toWrapperError (some g)))) ∧
    (env.toWrapperError (env.toWrapperError (some g)) = env.toWrapperError (some g) →
      ∃ s3, run env (newTxExtractorInit heap)
          [.bgCallPrim, .primReturn (some g), .handoffResult] = some s3 ∧
        s3.fg = .startFailed (env.toWrapperError (some g))) := by
  have hout : bgOutcome env.toWrapperError (errorsNew heap rollbackMsg) (some g) =
      env.toWrapperError (some g) := by
    simp [bgOutcome, hfresh]
  have hrun : run env (newTxExtractorInit heap)
      [.bgCallPrim, .primReturn (some g), .handoffResult] =
      some { newTxExtractorInit heap with
        bg := .done
        fg := .startFailed (env.toWrapperError (env.toWrapperError (some g)))
        primCalls := [bridgeOptions]
        attemptsLeft := bridgeOptions.Attempts
        resultSent := 1
        translations := 2 } := by
    simp [run, step, newTxExtractorInit, hout, selectResultCase, hnn]
  refine ⟨⟨_, hrun, rfl, rfl, rfl, rfl, rfl⟩, ?_, ?_⟩
  · intro evs s1 hr hinvoke hev
    have h0 : StartFailing env (errorsNew heap rollbackMsg) (some g) (newTxExtractorInit heap) := by
      simp [StartFailing, newTxExtractorInit]
    have hf := startFailing_run env _ _ evs _ s1 h0 hr hinvoke hev
    obtain ⟨bg, fg, rb0, hp, tc, al, pc, rs, rets, ops, tr⟩ := s1
    cases bg <;> cases fg <;> simp_all [StartFailing, selectResultCase]
  · intro hidem
    exact ⟨_, hrun, by simp [hidem]⟩

theorem startup_failure_translated_again_witness :
    ∃ s3, run tagEnv (newTxExtractorInit 7)
          [.bgCallPrim, .primReturn (some (errorsNew 1 "boom")), .handoffResult] = some s3 ∧
        s3.fg = .startFailed
          (tagEnv.toWrapperError (tagEnv.toWrapperError (some (errorsNew 1 "boom")))) ∧
        s3.translations = 2 ∧ s3.bg = .done ∧ s3.txCtx = none ∧ s3.returns = [] :=
  (startup_failure_translated_again tagEnv 7 (errorsNew 1 "boom") (by decide)
    (by decide)).1

/-! ## After the terminal outcome -/

/-- A caller blocked in the send on `finishC` after the goroutine has ended
stays blocked: no step is enabled. -/
theorem blocked_forever (env : Env) (s : State) (b : Bool) (d : txResult)
    (hbg : s.bg = .done) (hfg : s.fg = .sendFinish b d) (ev : Event) : step env s ev = none := by
  obtain ⟨bg, fg, rb0, hp, tc, al, pc, rs, rets, ops, tr⟩ := s
  simp only at hbg hfg
  subst hbg hfg
  cases ev <;> simp [step]

/-- A session whose Facade has returned from `Commit` or `Rollback`: the
goroutine has ended. -/
theorem returned_done (heap : Nat) (s : State) (hinv : Inv heap s) (hfg : s.fg = .ready)
    (hret : s.returns ≠ []) : s.bg = .done ∧ s.txCtx ≠ none := by
  obtain ⟨bg, fg, rb0, hp, tc, al, pc, rs, rets, ops, tr⟩ := s
  simp only at hfg
  subst hfg
  cases bg <;> simp_all [Inv, Parked, Finished]

/-- C3, as stated, fails: after `Commit` returned a token, a second `Commit` is
blocked in its send on `finishC`; it has returned nothing, and no step of the
session is enabled any more. -/
theorem second_commit_blocks :
    ∃ s, run idEnv (newTxExtractorInit 7) (committedRun ++ [.callCommit]) = some s ∧
      s.returns = [.commit (some {}) none] ∧
      s.fg = .sendFinish true commitDecision ∧
      s.bg = .done ∧
      ∀ ev, step idEnv s ev = none := by
  refine ⟨{ committedState with fg := .sendFinish true commitDecision }, ?_, rfl, rfl, rfl, ?_⟩
  · decide
  · intro ev
    exact blocked_forever idEnv _ true commitDecision rfl rfl ev

/-- C3, amended: after one call of `Commit` or `Rollback` has returned, a second
call of `Commit` or of `Rollback` enters the send on `finishC` and never
returns: the goroutine has ended, the list of returned values stays as it was,
and no step of the session is enabled any more.  The Facade keeps no record of
a finished transaction and returns no error. -/
theorem second_finish_never_returns (env : Env) (heap : Nat) (s : State)
    (hr : Reachable env heap s) (hfg : s.fg = .ready) (hret : s.returns ≠ []) :
    s.bg = .done ∧
    (∃ s1, step env s .callCommit = some s1 ∧
        s1.fg = .sendFinish true commitDecision ∧ s1.returns = s.returns ∧
        ∀ ev, step env s1 ev = none) ∧
    (∃ s1, step env s .callRollback = some s1 ∧
        s1.fg = .sendFinish false rollbackDecision ∧ s1.returns = s.returns ∧
        ∀ ev, step env s1 ev = none) := by
  have hinv := reachable_inv env heap s hr
  obtain ⟨hbg, _⟩ := returned_done heap s hinv hfg hret
  refine ⟨hbg, ⟨{ s with fg := .sendFinish true commitDecision }, ?_, rfl, rfl, ?_⟩,
    ⟨{ s with fg := .sendFinish false rollbackDecision }, ?_, rfl, rfl, ?_⟩⟩
  · simp [step, hfg, enterFinish_commit]
  · intro ev
    exact blocked_forever env { s with fg := .sendFinish true commitDecision } true
      commitDecision hbg rfl ev
  · simp [step, hfg, enterFinish_rollback]
  · intro ev
    exact blocked_forever env { s with fg := .sendFinish false rollbackDecision } false
      rollbackDecision hbg rfl ev

theorem second_finish_never_returns_witness :
    ∃ s1, step idEnv committedState .callRollback = some s1 ∧
        s1.fg = .sendFinish false rollbackDecision ∧ s1.returns = committedState.returns ∧
        ∀ ev, step idEnv s1 ev = none :=
  (second_finish_never_returns idEnv 7 committedState (committedState_reachable idEnv rfl) rfl
    (by decide)).2.2

/-- C4, as stated, fails: after `Commit` returned a token, `GetMulti` on the
Facade is passed to the underlying datastore with the stored transaction
context 3 (the datastore of `txOnlyEnv` accepts no other) and returns
success. -/
theorem getMulti_after_commit_succeeds :
    ∃ s, run txOnlyEnv (newTxExtractorInit 7) (committedRun ++ [.callOp (.getMulti [1])]) =
        some s ∧
      s.returns = [.commit (some {}) none] ∧
      s.bg = .done ∧
      s.ops = [.error (.ret none)] := by
  refine ⟨{ committedState with ops := [.error (.ret none)] }, ?_, rfl, rfl, rfl⟩
  decide

/-- C4, amended: after `Commit` or `Rollback` has returned, a call of an
operation method is carried out as before: the step is enabled and records what
the method did; `GetMulti`, `PutMulti` and `DeleteMulti` hand to their helper a
closure that calls the underlying datastore with the session's stored
transaction context, and return what the helper returns; `Get` and `Delete`
return success when that is what their helper returns.  No call is rejected
because the transaction is finished. -/
theorem ops_after_finish_forwarded (env : Env) (heap : Nat) (s : State)
    (hr : Reachable env heap s) (hfg : s.fg = .ready) (hret : s.returns ≠ []) :
    s.txCtx ≠ none ∧
    (∀ op, step env s (.callOp op) = some (afterOp s (runOp env s.heap (sessionTx s) op)) ∧
        (afterOp s (runOp env s.heap (sessionTx s) op)).ops =
          s.ops ++ [runOp env s.heap (sessionTx s) op]) ∧
    (∀ ks, transactionImpl.GetMulti env s.heap (sessionTx s) ks =
        env.getMultiOps ks fun ks1 => .ret (env.dsGetMulti s.txCtx ks1)) ∧
    (∀ ks, transactionImpl.DeleteMulti env s.heap (sessionTx s) ks =
        env.deleteMultiOps ks fun ks1 => .ret (env.dsDeleteMulti s.txCtx ks1)) ∧
    (∀ ks, transactionImpl.PutMulti env s.heap (sessionTx s) ks =
        (env.putMultiOps ks fun ks1 =>
          match env.dsPutMulti s.txCtx ks1 with
          | (_, some err) => .ret (none, none, some err)
          | (newKeys, none) => .ret (none, some (env.toWrapperPendingKeys newKeys), none)).andThen
        fun r =>
          match r with
          | (_, _, some err) => .ret (none, some err)
          | (_, pKeys, none) => .ret (pKeys, none)) ∧
    (∀ k, env.getMultiOps [k] (fun ks1 => .ret (env.dsGetMulti s.txCtx ks1)) = .ret none →
        transactionImpl.Get env s.heap (sessionTx s) k = .ret none) ∧
    (∀ k, env.deleteMultiOps [k] (fun ks1 => .ret (env.dsDeleteMulti s.txCtx ks1)) = .ret none →
        transactionImpl.Delete env s.heap (sessionTx s) k = .ret none) := by
  have hinv := reachable_inv env heap s hr
  obtain ⟨_, htx⟩ := returned_done heap s hinv hfg hret
  have hget : ∀ ks, transactionImpl.GetMulti env s.heap (sessionTx s) ks =
      env.getMultiOps ks fun ks1 => .ret (env.dsGetMulti s.txCtx ks1) := fun _ => rfl
  have hdel : ∀ ks, transactionImpl.DeleteMulti env s.heap (sessionTx s) ks =
      env.deleteMultiOps ks fun ks1 => .ret (env.dsDeleteMulti s.txCtx ks1) := fun _ => rfl
  refine ⟨htx, ?_, hget, hdel, fun _ => rfl, ?_, ?_⟩
  · intro op
    refine ⟨by simp [step, hfg], ?_⟩
    unfold afterOp
    split <;> rfl
  · intro k hk
    simp [transactionImpl.Get, hget, hk, Outcome.andThen]
  · intro k hk
    simp [transactionImpl.Delete, hdel, hk, Outcome.andThen]

theorem ops_after_finish_forwarded_witness :
    transactionImpl.Get txOnlyEnv committedState.heap (sessionTx committedState) 1 = .ret none :=
  (ops_after_finish_forwarded txOnlyEnv 7 committedState
    (committedState_reachable txOnlyEnv rfl) rfl (by decide)).2.2.2.2.2.1 1 rfl

/-! ## A client context without extractor -/

/-- C10, evaluated: on a Facade whose client context carries no extractor,
`getTxExtractor` returns nil, the guard `tx == nil` does not fire, and `Commit`
and `Rollback` panic on the nil extractor; so do `GetMulti`, `PutMulti` and
`DeleteMulti` as soon as their helper runs the closure.  No receiver makes
`Commit` or `Rollback` return the guard's error. -/
theorem missing_extractor_dereferenced (heap : Nat) :
    getTxExtractor { value := .absent } = .ret none ∧
    transactionImpl.CommitEnter heap bareTx = .crash nilDeref ∧
    transactionImpl.RollbackEnter heap bareTx = .crash nilDeref ∧
    transactionImpl.GetMulti idEnv heap bareTx [1] = .crash nilDeref ∧
    transactionImpl.PutMulti idEnv heap bareTx [1] = .crash nilDeref ∧
    transactionImpl.DeleteMulti idEnv heap bareTx [1] = .crash nilDeref ∧
    (∀ tx err, transactionImpl.CommitEnter heap tx ≠ .ret (.reject err)) ∧
    (∀ tx err, transactionImpl.RollbackEnter heap tx ≠ .ret (.reject err)) := by
  refine ⟨rfl, rfl, rfl, rfl, rfl, rfl, ?_, ?_⟩
  · intro tx err
    rcases tx with _ | ⟨_ | ⟨⟨_ | ⟨_ | ext⟩ | _⟩⟩⟩ <;>
      simp [transactionImpl.CommitEnter, clientCtx, getTxExtractor, Outcome.andThen,
        txExtractor.commit]
  · intro tx err
    rcases tx with _ | ⟨_ | ⟨⟨_ | ⟨_ | ext⟩ | _⟩⟩⟩ <;>
      simp [transactionImpl.RollbackEnter, clientCtx, getTxExtractor, Outcome.andThen,
        txExtractor.rollback]

end AEDatastore
